import Mathlib

/-!
Shallow embedding of `exporter/logic.py` (GitLab→GitHub export orchestrator).

The Python module is translated definition by definition:

* `Bar` models the mutable state of one `enlighten` counter that
  `ProgressBarWrapper` manipulates (`count`, `total`, `unit`).
* `ProgressBarWrapper.*` are the wrapper's methods as state transformers
  (`refresh` only re-renders and has no model state, so it is dropped).
* `Event` is the trace alphabet: every externally visible call the tasks
  make (HTTP calls, git calls, prints, bar operations) in program order.
* Network results are supplied by environments (`GitHubEnv`, `GitLabEnv`):
  each field gives the outcome the corresponding HTTP / git call would
  have (`none` = success, `some st` = `requests.HTTPError` with that
  status, or an error message for git failures).  `requests` only raises
  `HTTPError` from `raise_for_status`, which is what `except HTTPError`
  catches in `TaskPushToGitHub.run`.
* A task's Python `run` either returns normally or lets an exception
  escape; this is `Except Err α`.  `TaskPushToGitHub.run` returns `None`
  both on the skip path and on the success path; the two are told apart
  by which `return` fires, modelled as `PushOutcome.skipped` vs
  `PushOutcome.success`.
-/

/-- HTTP-level / git-level errors that can escape a task. `httpError st`
is `requests.HTTPError` for status `st`; `valueError` is Python's
`ValueError`; the remaining constructors stand for git clone / lfs-fetch /
push failures. -/
inductive Err where
  | httpError (status : Nat)
  | valueError (msg : String)
  | cloneError (msg : String)
  | fetchError (msg : String)
  | pushError (msg : String)
deriving DecidableEq, Repr

/-- State of one enlighten progress counter as used through
`ProgressBarWrapper`: current `count`, fixed `total`, and the status
label stored in the bar's `unit` field. -/
structure Bar where
  count : Nat
  total : Nat
  unit : String
deriving DecidableEq, Repr

/-- Python `ProgressBarWrapper.update` (logic.py:207): `bar.update()` increments
the count by one (enlighten does not clamp at `total`). -/
def ProgressBarWrapper.update (b : Bar) : Bar :=
  { b with count := b.count + 1 }

/-- Python `ProgressBarWrapper.set_msg` (logic.py:211): stores the label in
`bar.unit`. -/
def ProgressBarWrapper.set_msg (msg : String) (b : Bar) : Bar :=
  { b with unit := msg }

/-- Python `ProgressBarWrapper.set_finished` (logic.py:219): `bar.count = bar.total`. -/
def ProgressBarWrapper.set_finished (b : Bar) : Bar :=
  { b with count := b.total }

/-- Python `ProgressBarWrapper.set_msg_and_finish` (logic.py:215): `set_msg` then
`set_finished`. -/
def ProgressBarWrapper.set_msg_and_finish (msg : String) (b : Bar) : Bar :=
  ProgressBarWrapper.set_finished (ProgressBarWrapper.set_msg msg b)

/-- Python `ProgressBarWrapper.is_finished` (logic.py:223): `count == total`. -/
def ProgressBarWrapper.is_finished (b : Bar) : Bool :=
  b.count == b.total

/-- Trace alphabet: the externally visible calls the tasks perform, in
program order.  `barSetMsg`, `barUpdate`, `barFinish` record the reporter
operations so bar-state evolution can be replayed from a trace. -/
inductive Event where
  | searchCall (q : String)
  | cloneCall (url : String) (path : String)
  | lfsFetchCall
  | createRepoCall (name : String)
  | deleteRepoCall (name : String) (owner : String)
  | createRemoteCall (name : String) (url : String)
  | pushCall
  | printLine (s : String)
  | barSetMsg (m : String)
  | barUpdate
  | barFinish (m : String)
deriving DecidableEq, Repr

/-- Number of `create_repo` HTTP calls in a trace. -/
def countCreateCalls : List Event → Nat
  | [] => 0
  | Event.createRepoCall _ :: t => countCreateCalls t + 1
  | _ :: t => countCreateCalls t

/-- Number of `delete_repo` HTTP calls in a trace. -/
def countDeleteCalls : List Event → Nat
  | [] => 0
  | Event.deleteRepoCall _ _ :: t => countDeleteCalls t + 1
  | _ :: t => countDeleteCalls t

/-- Number of `remote.push()` calls in a trace. -/
def countPushCalls : List Event → Nat
  | [] => 0
  | Event.pushCall :: t => countPushCalls t + 1
  | _ :: t => countPushCalls t

/-- Number of `git clone` calls in a trace. -/
def countCloneCalls : List Event → Nat
  | [] => 0
  | Event.cloneCall _ _ :: t => countCloneCalls t + 1
  | _ :: t => countCloneCalls t

/-- Number of progress ticks (`bar.update()`) in a trace. -/
def countTicks : List Event → Nat
  | [] => 0
  | Event.barUpdate :: t => countTicks t + 1
  | _ :: t => countTicks t

/-- The `delete_repo` events of a trace, in order. -/
def deleteCallsOf : List Event → List Event
  | [] => []
  | Event.deleteRepoCall n o :: t => Event.deleteRepoCall n o :: deleteCallsOf t
  | _ :: t => deleteCallsOf t

/-- Replay one trace event against the bar state (non-bar events leave the
bar unchanged). -/
def applyBarEvent (b : Bar) : Event → Bar
  | Event.barUpdate => ProgressBarWrapper.update b
  | Event.barSetMsg m => ProgressBarWrapper.set_msg m b
  | Event.barFinish m => ProgressBarWrapper.set_msg_and_finish m b
  | _ => b

/-- The sequence of bar `count` values along a trace, starting from `b`
(length = trace length + 1). -/
def barCounts (b : Bar) : List Event → List Nat
  | [] => [b.count]
  | e :: t => b.count :: barCounts (applyBarEvent b e) t

/-- Results the GitHub side would give to the task's calls.
`create n` is the outcome of the (n+1)-st `create_repo` call
(`none` = created, `some st` = `HTTPError` with status `st`);
`deleteResult` the outcome of `delete_repo`; `pushResult` the outcome of
`remote.push()`.  `login` is the authenticated user's login (the lazy
`GitHubClient.login` property) and `token` the API token. -/
structure GitHubEnv where
  create : Nat → Option Nat
  deleteResult : Option Nat
  pushResult : Option String
  login : String
  token : String

/-- Task outcome distinguishing the early `return` on the skip branch
(logic.py:164) from the normal end of `run` (logic.py:179). -/
inductive PushOutcome where
  | success
  | skipped
deriving DecidableEq, Repr

/-- Tail of `TaskPushToGitHub.run` after the `try/except` block
(logic.py:172-179): `bar.update()`, build the authenticated push URL,
`create_remote`, `set_msg`, `remote.push()`, `set_msg_and_finish('')`. -/
def pushTail (env : GitHubEnv) (repo_name : String) (b : Bar) (evs : List Event) :
    Except Err PushOutcome × Bar × List Event :=
  let b1 := ProgressBarWrapper.update b
  let owner := env.login
  let url := "https://" ++ owner ++ ":" ++ env.token ++ "@github.com/" ++ owner ++
      "/" ++ repo_name ++ ".git"
  let b2 := ProgressBarWrapper.set_msg "Pushing to GitHub" b1
  let evs1 := evs ++ [Event.barUpdate,
      Event.createRemoteCall ("github_" ++ repo_name) url,
      Event.barSetMsg "Pushing to GitHub", Event.pushCall]
  match env.pushResult with
  | some m => (Except.error (Err.pushError m), b2, evs1)
  | none => (Except.ok PushOutcome.success,
      ProgressBarWrapper.set_msg_and_finish "" b2, evs1 ++ [Event.barFinish ""])

/-- Python `TaskPushToGitHub.run` (logic.py:156-179).  The first `create_repo`
is attempted; on `HTTPError` the code branches on `conflict_policy`:
`skip`/`porcelain` prints a notice, force-finishes the bar with label
`SKIPPED` and returns; `overwrite` deletes the repo (owner =
`github.login`) and creates it again, either call's `HTTPError`
propagating; for every other policy (including `fail`) the `except`
block has no branch, so the exception is swallowed and control falls
through to the push tail. -/
def TaskPushToGitHub.run (env : GitHubEnv) (conflict_policy repo_name : String) (b : Bar) :
    Except Err PushOutcome × Bar × List Event :=
  let b1 := ProgressBarWrapper.set_msg "Creating GitHub repo" b
  let evs := [Event.barSetMsg "Creating GitHub repo", Event.createRepoCall repo_name]
  match env.create 0 with
  | none => pushTail env repo_name b1 evs
  | some _st =>
    if conflict_policy ∈ ["skip", "porcelain"] then
      (Except.ok PushOutcome.skipped,
       ProgressBarWrapper.set_msg_and_finish "SKIPPED" b1,
       evs ++ [Event.printLine ("Repository " ++ repo_name ++ " already exists. Skipping"),
               Event.barFinish "SKIPPED"])
    else if conflict_policy = "overwrite" then
      let b2 := ProgressBarWrapper.set_msg "Deleting GitHubRepo" b1
      let evs2 := evs ++ [Event.barSetMsg "Deleting GitHubRepo",
          Event.printLine ("Overwriting " ++ repo_name ++ " repository."),
          Event.deleteRepoCall repo_name env.login]
      match env.deleteResult with
      | some d => (Except.error (Err.httpError d), b2, evs2)
      | none =>
        let b3 := ProgressBarWrapper.set_msg "Creating GitHub repo" b2
        let evs3 := evs2 ++ [Event.barSetMsg "Creating GitHub repo",
            Event.createRepoCall repo_name]
        match env.create 1 with
        | some c => (Except.error (Err.httpError c), b3, evs3)
        | none => pushTail env repo_name b3 evs3
    else
      pushTail env repo_name b1 evs

/-- One project entry of the GitLab search-result JSON array, abstracted
to the parts the task reads: `size` is the number of keys of the dict
(what Python's `len(r[0])` measures), `owner_username` is
`json['owner']['username']`, `http_url_to_repo` is
`json['http_url_to_repo']`. -/
structure ProjectJson where
  size : Nat
  owner_username : String
  http_url_to_repo : String
deriving DecidableEq, Repr

/-- Python `len` of a project dict. -/
def ProjectJson.len (j : ProjectJson) : Nat := j.size

/-- Results the GitLab side and git would give to the fetch task's calls:
`search q` is the array `search_owned_projects(q)` returns, `token` the
GitLab token, `cloneResult` / `lfsResult` the outcome of
`git.Repo.clone_from` / `git lfs fetch --all` (`none` = success,
`some msg` = raised error). -/
structure GitLabEnv where
  search : String → List ProjectJson
  token : String
  cloneResult : Option String
  lfsResult : Option String

/-- The clone-URL rewrite of logic.py:137:
`re.sub(r'(https://)', f'...', url)` injects `username:password@` after
every occurrence of the literal `https://`. -/
def auth_https_url (username password url : String) : String :=
  url.replace "https://" ("https://" ++ username ++ ":" ++ password ++ "@")

/-- Python `TaskFetchGitlabProject.run` (logic.py:124-144).  Note the source's
two guards: `len(r) == 0` raises `ValueError('Multiple projects found
for ...')` and `len(r[0]) == 0` raises `ValueError('No project found
for ...')`; otherwise the FIRST search hit is used unconditionally.
After a successful clone and lfs fetch the bar is force-finished
(`set_msg_and_finish('')`), not ticked a third time. -/
def TaskFetchGitlabProject.run (env : GitLabEnv) (project_name base_dir : String) (b : Bar) :
    Except Err ProjectJson × Bar × List Event :=
  let b1 := ProgressBarWrapper.set_msg "Searching for project" b
  let r := env.search project_name
  let b2 := ProgressBarWrapper.update b1
  let evs := [Event.barSetMsg "Searching for project", Event.searchCall project_name,
      Event.barUpdate]
  match r with
  | [] => (Except.error (Err.valueError ("Multiple projects found for " ++ project_name)),
      b2, evs)
  | json :: _ =>
    if json.len = 0 then
      (Except.error (Err.valueError ("No project found for " ++ project_name)), b2, evs)
    else
      let url := auth_https_url json.owner_username env.token json.http_url_to_repo
      let b3 := ProgressBarWrapper.set_msg "Cloning GitLab repo" b2
      let evs2 := evs ++ [Event.barSetMsg "Cloning GitLab repo",
          Event.cloneCall url (base_dir ++ "/" ++ project_name)]
      match env.cloneResult with
      | some m => (Except.error (Err.cloneError m), b3, evs2)
      | none =>
        let b4 := ProgressBarWrapper.update b3
        let b5 := ProgressBarWrapper.set_msg "Fetching GitLab LFS files" b4
        let evs3 := evs2 ++ [Event.barUpdate,
            Event.barSetMsg "Fetching GitLab LFS files", Event.lfsFetchCall]
        match env.lfsResult with
        | some m => (Except.error (Err.fetchError m), b5, evs3)
        | none =>
          (Except.ok json, ProgressBarWrapper.set_msg_and_finish "" b5,
           evs3 ++ [Event.barFinish ""])

/-- Python `TaskExportProject.run` (logic.py:193-198): run the fetch task; if it
returns a repo, run the push task on `prefix + project_name` with the
same bar.  An exception from either phase escapes `run`. -/
def TaskExportProject.run (genv : GitLabEnv) (ghenv : GitHubEnv)
    (project_name base_dir pfx conflict_policy : String) (b : Bar) :
    Except Err PushOutcome × Bar × List Event :=
  match TaskFetchGitlabProject.run genv project_name base_dir b with
  | (Except.error e, b1, evs) => (Except.error e, b1, evs)
  | (Except.ok _json, b1, evs) =>
    let out := TaskPushToGitHub.run ghenv conflict_policy (pfx ++ project_name) b1
    (out.1, out.2.1, evs ++ out.2.2)

/-- Python `TaskProgressBarPool.register` (logic.py:240-245): a fresh enlighten
counter (`count = 0`) with the given `total`; `ProgressBarWrapper`'s
constructor immediately calls `set_msg('')`. -/
def TaskProgressBarPool.register (_name : String) (total : Nat) : Bar :=
  { count := 0, total := total, unit := "" }

/-- Python `TaskProgressBarPool.run` (logic.py:247-250):
`while not all(is_finished): for bar in pool: bar.refresh()`.
The pool's reporters are mutated concurrently by the export tasks, so the
loop is modelled against a sequence of snapshots: `snap k` is the state
of `self.pool` at the k-th evaluation of the loop condition.  `fuel`
bounds the number of iterations modelled; the result is `(some k, r)` if
the loop exits at check `k` having performed `r` refresh calls in total,
and `(none, r)` if it has not exited within `fuel` checks. -/
def TaskProgressBarPool.run (snap : Nat → List Bar) : Nat → Nat → Nat → Option Nat × Nat
  | _k, acc, 0 => (none, acc)
  | k, acc, fuel + 1 =>
    if (snap k).all (fun x => ProgressBarWrapper.is_finished x) then (some k, acc)
    else TaskProgressBarPool.run snap (k + 1) (acc + (snap k).length) fuel

/-- Per-project environment pair consumed by one export task. -/
structure ProjectEnv where
  gitlab : GitLabEnv
  github : GitHubEnv

/-- Python `Exporter.exucute_tasks` (logic.py:269-276): each task runs on its
own `Thread`; the threads are all joined; nothing is returned and no
exception is caught by this code — a task's uncaught exception dies with
its thread.  The first component is the method's return value (`None`),
the second the per-thread raw results as the threading runtime sees
them. -/
def Exporter.exucute_tasks (outcomes : List (Except Err PushOutcome)) :
    Unit × List (Except Err PushOutcome) :=
  ((), outcomes)

/-- Python `Exporter.run` (logic.py:260-267): a temporary root is acquired, one
bar (total = 5) is registered per project, one `TaskExportProject` is
built per project, the progress-pool task is appended, and all are run
via `exucute_tasks`.  The function returns `None`; per-task results /
uncaught exceptions exist only on the individual threads (second
component). -/
def Exporter.run (envs : String → ProjectEnv) (projects : List String)
    (conflict_policy tmp pfx : String) : Unit × List (Except Err PushOutcome) :=
  Exporter.exucute_tasks (projects.map (fun name =>
    (TaskExportProject.run (envs name).gitlab (envs name).github name tmp pfx
      conflict_policy (TaskProgressBarPool.register name 5)).1))

/-- A well-formed single search hit used in concrete runs. -/
def okProject : ProjectJson :=
  { size := 2, owner_username := "alice",
    http_url_to_repo := "https://gitlab.fit.cvut.cz/alice/alpha.git" }

/-- GitLab environment in which everything succeeds and the search for any
name returns exactly one project. -/
def glOk : GitLabEnv :=
  { search := fun _ => [okProject], token := "glt", cloneResult := none,
    lfsResult := none }

/-- GitLab environment in which every search returns zero results. -/
def glEmpty : GitLabEnv :=
  { search := fun _ => [], token := "glt", cloneResult := none, lfsResult := none }

/-- GitLab environment in which every search returns two candidates. -/
def glTwo : GitLabEnv :=
  { search := fun _ => [okProject, okProject], token := "glt", cloneResult := none,
    lfsResult := none }

/-- GitHub environment in which every call succeeds. -/
def ghOk : GitHubEnv :=
  { create := fun _ => none, deleteResult := none, pushResult := none,
    login := "alice", token := "ght" }

/-- GitHub environment in which the first `create_repo` raises 409 Conflict
(the repository name already exists) and everything else succeeds. -/
def ghConflict : GitHubEnv :=
  { create := fun n => if n = 0 then some 409 else none, deleteResult := none,
    pushResult := none, login := "alice", token := "ght" }

/-- A fresh reporter as `Exporter.run` registers it: total 5, count 0. -/
def bar0 : Bar := TaskProgressBarPool.register "alpha" 5


/-- One HTTP response to a paginated GET: its status code, the JSON array
it carries (elements abstracted to `α`), and the URL of `r.links['next']`
when a next-page link is present. -/
structure PageResponse (α : Type) where
  status : Nat
  items : List α
  next : Option String
deriving DecidableEq, Repr

/-- Python `_paginated_json_get` (logic.py:41-47 and logic.py:92-98 — the two
client classes carry textually identical bodies): GET the url,
`raise_for_status` (an `HTTPError` for any status ≥ 400; real HTTP
statuses are < 600), take the JSON array, and if a next-page link is
present append the recursive result for it.  `env url` is the response
the session returns for `url`; `fuel` bounds the recursion depth modelled
(the Python recursion is unbounded; every theorem below assumes the
next-link chain is finite and shorter than `fuel`, so the fuel-exhausted
branch is never reached there). -/
def paginatedJsonGetCore {α : Type} (env : String → PageResponse α) :
    Nat → String → Except Err (List α)
  | 0, _url => Except.error (Err.valueError "pagination fuel exhausted")
  | fuel + 1, url =>
    let r := env url
    if 400 ≤ r.status then Except.error (Err.httpError r.status)
    else
      match r.next with
      | none => Except.ok r.items
      | some u =>
        match paginatedJsonGetCore env fuel u with
        | Except.error e => Except.error e
        | Except.ok rest => Except.ok (r.items ++ rest)

/-- Python `GitHubClient._paginated_json_get` (logic.py:41-47). -/
def GitHubClient.paginated_json_get {α : Type} (env : String → PageResponse α)
    (fuel : Nat) (url : String) : Except Err (List α) :=
  paginatedJsonGetCore env fuel url

/-- Python `GitLabClient._paginated_json_get` (logic.py:92-98). -/
def GitLabClient.paginated_json_get {α : Type} (env : String → PageResponse α)
    (fuel : Nat) (url : String) : Except Err (List α) :=
  paginatedJsonGetCore env fuel url

/-- Predicate `follows env url chain` says `chain` is exactly the sequence of
responses reachable from `url` by following next-page links: the first
element is the response to `url`, and the chain continues through the
next link, ending at the first response without one. -/
def follows {α : Type} (env : String → PageResponse α) :
    String → List (PageResponse α) → Prop
  | _url, [] => False
  | url, r :: rest =>
    env url = r ∧
      match r.next with
      | none => rest = []
      | some u => follows env u rest

/-- Specification-side description of one paginated listing over a chain
of page responses: concatenate the page arrays in page order, aborting
with the underlying `HTTPError` at the first page whose status is an
error. -/
def pageSpec {α : Type} : List (PageResponse α) → Except Err (List α)
  | [] => Except.ok []
  | r :: rest =>
    if 400 ≤ r.status then Except.error (Err.httpError r.status)
    else
      match pageSpec rest with
      | Except.error e => Except.error e
      | Except.ok xs => Except.ok (r.items ++ xs)

/-- The sequence of bar states along a trace, starting from `b`
(length = trace length + 1). -/
def barStates (b : Bar) : List Event → List Bar
  | [] => [b]
  | e :: t => b :: barStates (applyBarEvent b e) t

/-- Total number of `refresh` calls the pool loop performs over the
iterations `i, i+1, ..., i+n-1` (one per registered reporter per
iteration). -/
def refreshTotal (snap : Nat → List Bar) : Nat → Nat → Nat
  | _i, 0 => 0
  | i, n + 1 => (snap i).length + refreshTotal snap (i + 1) n

lemma paginatedCore_eq_pageSpec {α : Type} (env : String → PageResponse α) :
    ∀ (chain : List (PageResponse α)) (url : String) (fuel : Nat),
      follows env url chain → chain.length ≤ fuel →
      paginatedJsonGetCore env fuel url = pageSpec chain := by
  intro chain
  induction chain with
  | nil => intro url fuel hf _; exact absurd hf (by simp [follows])
  | cons r rest ih =>
    intro url fuel hf hlen
    obtain ⟨henv, hnext⟩ := hf
    cases fuel with
    | zero => simp at hlen
    | succ f =>
      simp only [paginatedJsonGetCore, pageSpec]
      rw [henv]
      by_cases hs : 400 ≤ r.status
      · simp [hs]
      · simp only [if_neg hs]
        cases hn : r.next with
        | none =>
          rw [hn] at hnext
          dsimp only at hnext ⊢
          subst hnext
          simp [pageSpec]
        | some u =>
          rw [hn] at hnext
          dsimp only at hnext ⊢
          have hrest : rest.length ≤ f := by
            simp only [List.length_cons] at hlen; omega
          rw [ih u f hnext hrest]

lemma pageSpec_all_ok {α : Type} :
    ∀ (chain : List (PageResponse α)), (∀ r ∈ chain, r.status < 400) →
      pageSpec chain = Except.ok (chain.foldr (fun r acc => r.items ++ acc) []) := by
  intro chain
  induction chain with
  | nil => intro _; rfl
  | cons r rest ih =>
    intro h
    have hr : r.status < 400 := h r (by simp)
    have hrest := ih (fun x hx => h x (by simp [hx]))
    simp [pageSpec, if_neg (Nat.not_le.mpr hr), hrest]

/-- C9: a paginated list request returns the concatenation of all pages in
page order, recursing while a next-page link is indicated, and any page
whose fetch fails (HTTP status ≥ 400) aborts the whole listing with that
error instead of returning a truncated sequence.  `chain` is the finite
next-link chain starting at `url` and `fuel` any bound on its length;
`pageSpec` is the order-preserving, abort-on-error description, and on an
all-successful chain the result is exactly the in-order concatenation of
the page arrays.  Both clients' `_paginated_json_get` have identical
bodies and are covered. -/
theorem c9_pagination_concatenates_in_order {α : Type}
    (env : String → PageResponse α) (url : String)
    (chain : List (PageResponse α)) (fuel : Nat)
    (hf : follows env url chain) (hlen : chain.length ≤ fuel) :
    GitHubClient.paginated_json_get env fuel url = pageSpec chain ∧
    GitLabClient.paginated_json_get env fuel url = pageSpec chain ∧
    ((∀ r ∈ chain, r.status < 400) →
      GitHubClient.paginated_json_get env fuel url =
        Except.ok (chain.foldr (fun r acc => r.items ++ acc) [])) := by
  have hcore := paginatedCore_eq_pageSpec env chain url fuel hf hlen
  refine ⟨hcore, hcore, fun hok => ?_⟩
  rw [GitHubClient.paginated_json_get, hcore, pageSpec_all_ok chain hok]

/-- Two-page environment exercising `c9_pagination_concatenates_in_order`:
page `p1` holds `[1, 2]` and links to `p2`, which holds `[3]`. -/
def pageEnvW : String → PageResponse Nat := fun u =>
  if u = "p1" then { status := 200, items := [1, 2], next := some "p2" }
  else { status := 200, items := [3], next := none }

/-- The next-link chain of `pageEnvW` starting at `p1`. -/
def chainW : List (PageResponse Nat) :=
  [{ status := 200, items := [1, 2], next := some "p2" },
   { status := 200, items := [3], next := none }]

/-- Witness for C9 at a concrete two-page listing: the hypotheses hold and
the result is `[1, 2, 3]`. -/
theorem c9_witness :
    follows pageEnvW "p1" chainW ∧ chainW.length ≤ 5 ∧
    (GitHubClient.paginated_json_get pageEnvW 5 "p1" = pageSpec chainW ∧
     GitLabClient.paginated_json_get pageEnvW 5 "p1" = pageSpec chainW ∧
     ((∀ r ∈ chainW, r.status < 400) →
       GitHubClient.paginated_json_get pageEnvW 5 "p1" =
         Except.ok (chainW.foldr (fun r acc => r.items ++ acc) []))) :=
  ⟨⟨rfl, rfl, rfl⟩, by decide,
   c9_pagination_concatenates_in_order pageEnvW "p1" chainW 5 ⟨rfl, rfl, rfl⟩ (by decide)⟩

/-- C1 is wrong about the code (code bug): with conflict policy `fail`
(or any policy other than `skip`/`porcelain`/`overwrite`) the `except
HTTPError` block of `TaskPushToGitHub.run` has no matching branch, so
the 409 Conflict raised by `create_repo` is swallowed — the task does
NOT end Failed; it ticks the bar, creates the remote and pushes to the
already-existing repository, returning as a success.  Here `create_repo`
raises 409 on its first call and the run is evaluated: the outcome is a
normal success, one push is performed, no delete and no retried create
occur. -/
theorem c1_fail_policy_swallows_conflict :
    (TaskPushToGitHub.run ghConflict "fail" "github_alpha" bar0).1 =
        Except.ok PushOutcome.success ∧
    countPushCalls (TaskPushToGitHub.run ghConflict "fail" "github_alpha" bar0).2.2 = 1 ∧
    countDeleteCalls (TaskPushToGitHub.run ghConflict "fail" "github_alpha" bar0).2.2 = 0 ∧
    countCreateCalls (TaskPushToGitHub.run ghConflict "fail" "github_alpha" bar0).2.2 = 1 :=
  ⟨rfl, rfl, rfl, rfl⟩

/-- C2 is wrong about the code (code bug): on a fully successful export of
one project the reporter's count sequence is
`0,1,2,5,6,5` (shown below with the label-only steps interleaved):
`TaskFetchGitlabProject.run` force-finishes the bar (count := total = 5)
at the end of Phase 1 instead of ticking it, then Phase 2's
`bar.update()` pushes the count to 6 — above the fixed total — and the
final `set_msg_and_finish('')` drops it back to 5.  So the count is not
monotonically non-decreasing, is not bounded by 5, and the reporter is
finished after Phase 1 yet reports not-finished again during Phase 2. -/
theorem c2_reporter_invariant_violated :
    (TaskExportProject.run glOk ghOk "alpha" "/tmp" "github_" "fail" bar0).1 =
        Except.ok PushOutcome.success ∧
    barCounts bar0
        (TaskExportProject.run glOk ghOk "alpha" "/tmp" "github_" "fail" bar0).2.2 =
      [0, 0, 0, 1, 1, 1, 2, 2, 2, 5, 5, 5, 6, 6, 6, 6, 5] ∧
    (∃ n ∈ barCounts bar0
        (TaskExportProject.run glOk ghOk "alpha" "/tmp" "github_" "fail" bar0).2.2,
      5 < n) ∧
    (∃ p ∈ (barCounts bar0
        (TaskExportProject.run glOk ghOk "alpha" "/tmp" "github_" "fail" bar0).2.2).zip
          (barCounts bar0
        (TaskExportProject.run glOk ghOk "alpha" "/tmp" "github_" "fail" bar0).2.2).tail,
      p.2 < p.1) ∧
    (∃ i : Fin (barStates bar0
        (TaskExportProject.run glOk ghOk "alpha" "/tmp" "github_" "fail" bar0).2.2).length,
     ∃ j : Fin (barStates bar0
        (TaskExportProject.run glOk ghOk "alpha" "/tmp" "github_" "fail" bar0).2.2).length,
      i.val < j.val ∧
      ProgressBarWrapper.is_finished ((barStates bar0
        (TaskExportProject.run glOk ghOk "alpha" "/tmp" "github_" "fail" bar0).2.2).get i)
          = true ∧
      ProgressBarWrapper.is_finished ((barStates bar0
        (TaskExportProject.run glOk ghOk "alpha" "/tmp" "github_" "fail" bar0).2.2).get j)
          = false) := by
  refine ⟨rfl, rfl, ?_, ?_, ?_⟩
  · decide
  · decide
  · decide

/-- C4 is wrong about the code (code bug): on a successful Phase 1 the
fetch task emits only TWO progress ticks (after the search and after the
clone); after the large-file fetch it calls `set_msg_and_finish('')`
(logic.py:143), which jumps the reporter straight to its total of 5 —
the reporter does not stand at 3 of 5 when Phase 1 ends, it is already
finished. -/
theorem c4_phase1_two_ticks_then_force_finish :
    (TaskFetchGitlabProject.run glOk "alpha" "/tmp" bar0).1 = Except.ok okProject ∧
    countTicks (TaskFetchGitlabProject.run glOk "alpha" "/tmp" bar0).2.2 = 2 ∧
    (TaskFetchGitlabProject.run glOk "alpha" "/tmp" bar0).2.1.count = 5 ∧
    (TaskFetchGitlabProject.run glOk "alpha" "/tmp" bar0).2.1.total = 5 ∧
    ProgressBarWrapper.is_finished
        (TaskFetchGitlabProject.run glOk "alpha" "/tmp" bar0).2.1 = true :=
  ⟨rfl, rfl, rfl, rfl, rfl⟩

/-- C5 is wrong about the code (code bug): the two search-result guards in
`TaskFetchGitlabProject.run` are swapped/nonsensical.  With ZERO search
results the code raises `ValueError('Multiple projects found for ...')` —
an ambiguity message, not a project-not-found error (the task does end
Failed before any clone, but with the wrong error).  And with TWO
candidates the lookup is not fatal at all: the task silently proceeds
with the first hit and completes its fetch. -/
theorem c5_zero_results_raises_multiple_found :
    (TaskFetchGitlabProject.run glEmpty "alpha" "/tmp" bar0).1 =
        Except.error (Err.valueError "Multiple projects found for alpha") ∧
    countCloneCalls (TaskFetchGitlabProject.run glEmpty "alpha" "/tmp" bar0).2.2 = 0 ∧
    countPushCalls (TaskFetchGitlabProject.run glEmpty "alpha" "/tmp" bar0).2.2 = 0 ∧
    (TaskFetchGitlabProject.run glTwo "alpha" "/tmp" bar0).1 = Except.ok okProject :=
  ⟨rfl, rfl, rfl, rfl⟩

/-- Environment pair for a project whose export fully succeeds. -/
def envOkPair : ProjectEnv := { gitlab := glOk, github := ghOk }

/-- Environment pair for a project whose fetch fails (empty search). -/
def envBadPair : ProjectEnv := { gitlab := glEmpty, github := ghOk }

/-- C3 counterexample: `Exporter.run` surfaces NO aggregated result — its
return value is `None` and is identical for a batch that fully succeeds
and a batch whose only task fails, so nothing in the surfaced result
identifies which projects succeeded, were skipped, or failed; and the
failing task's error is not caught at any task boundary: it remains an
uncaught exception on the task's own thread (second component), never
converted into a Failed outcome carried by the run. -/
theorem c3_counterexample :
    (Exporter.run (fun _ => envOkPair) ["alpha"] "fail" "/tmp" "github_").1 =
      (Exporter.run (fun _ => envBadPair) ["alpha"] "fail" "/tmp" "github_").1 ∧
    (Exporter.run (fun _ => envOkPair) ["alpha"] "fail" "/tmp" "github_").2 =
      [Except.ok PushOutcome.success] ∧
    (Exporter.run (fun _ => envBadPair) ["alpha"] "fail" "/tmp" "github_").2 =
      [Except.error (Err.valueError "Multiple projects found for alpha")] :=
  ⟨rfl, rfl, rfl⟩

/-- C3 amended: the orchestrator launches one thread per export task (plus
the progress pool), joins them all and returns `None`: no aggregated
per-project result is surfaced and no task error is caught at the task
boundary — each task's outcome or uncaught exception is visible only on
its own thread.  Failure isolation does hold structurally: the thread
results are exactly the independent per-task results, each computed from
that project's own environment, and the value `run` returns does not
depend on any of them. -/
theorem c3_amended (envs envs2 : String → ProjectEnv) (projects : List String)
    (conflict_policy tmp pfx : String) :
    (Exporter.run envs projects conflict_policy tmp pfx).1 = () ∧
    (Exporter.run envs projects conflict_policy tmp pfx).2 =
      projects.map (fun name =>
        (TaskExportProject.run (envs name).gitlab (envs name).github name tmp pfx
          conflict_policy (TaskProgressBarPool.register name 5)).1) ∧
    (Exporter.run envs projects conflict_policy tmp pfx).1 =
      (Exporter.run envs2 projects conflict_policy tmp pfx).1 :=
  ⟨rfl, rfl, rfl⟩

/-- Reporter state left behind by a fetch task that failed (empty search
result): one tick taken, far from its total of 5. -/
def barFail : Bar := (TaskFetchGitlabProject.run glEmpty "alpha" "/tmp" bar0).2.1

/-- C6 counterexample: after its only task has terminated (here: the fetch
task of project `alpha` died with an uncaught `ValueError`, leaving its
reporter at 1 of 5), the pool's `while not all(is_finished)` loop does
not exit — 200 polling iterations after the last task finished it is
still running, because a failed task never finishes its reporter.  So
the loop does not terminate within a bounded polling delay of the last
task finishing. -/
theorem c6_counterexample :
    (TaskFetchGitlabProject.run glEmpty "alpha" "/tmp" bar0).1 =
        Except.error (Err.valueError "Multiple projects found for alpha") ∧
    ProgressBarWrapper.is_finished barFail = false ∧
    (TaskProgressBarPool.run (fun _ => [barFail]) 0 0 200).1 = none :=
  ⟨rfl, rfl, rfl⟩

lemma poolRun_exits (snap : Nat → List Bar) :
    ∀ (fuel i acc k : Nat), i ≤ k → k - i < fuel →
      ((snap k).all (fun x => ProgressBarWrapper.is_finished x) = true) →
      (∀ j, i ≤ j → j < k →
        (snap j).all (fun x => ProgressBarWrapper.is_finished x) = false) →
      TaskProgressBarPool.run snap i acc fuel =
        (some k, acc + refreshTotal snap i (k - i)) := by
  intro fuel
  induction fuel with
  | zero => intro i acc k h1 h2 h3 h4; omega
  | succ f ih =>
    intro i acc k hik hlt hk hnot
    by_cases hi : i = k
    · subst hi
      simp [TaskProgressBarPool.run, hk, refreshTotal]
    · have hik2 : i < k := lt_of_le_of_ne hik hi
      have hfalse := hnot i le_rfl hik2
      simp only [TaskProgressBarPool.run, hfalse, Bool.false_eq_true, if_false]
      rw [ih (i + 1) (acc + (snap i).length) k hik2 (by omega) hk
        (fun j hj1 hj2 => hnot j (by omega) hj2)]
      have hsplit : k - i = (k - (i + 1)) + 1 := by omega
      rw [hsplit, refreshTotal, Nat.add_assoc]

/-- C6 amended: the pool's run loop repeatedly refreshes every registered
reporter (one refresh per reporter per iteration) and exits exactly at
the FIRST poll at which every reporter reports finished — i.e. within
one polling iteration of all reporters becoming finished; but its exit
condition is the reporters' state, not task termination, and (per the
counterexample) a task that terminates without finishing its reporter
leaves the loop spinning forever.  `snap j` is the pool's state at the
j-th check; if every reporter is finished at check `k` and not before,
the loop exits at check `k` having refreshed each reporter once per
earlier iteration. -/
theorem c6_amended (snap : Nat → List Bar) (fuel k : Nat)
    (hk : (snap k).all (fun x => ProgressBarWrapper.is_finished x) = true)
    (hfirst : ∀ j, j < k →
      (snap j).all (fun x => ProgressBarWrapper.is_finished x) = false)
    (hfuel : k < fuel) :
    TaskProgressBarPool.run snap 0 0 fuel = (some k, refreshTotal snap 0 k) := by
  have h := poolRun_exits snap fuel 0 0 k (Nat.zero_le k) (by omega) hk
    (fun j _ hj => hfirst j hj)
  simpa using h

/-- Snapshot stream for the C6 witness: a single reporter that reaches its
total of 5 at the second check. -/
def snapW : Nat → List Bar := fun j =>
  [{ count := if 2 ≤ j then 5 else j, total := 5, unit := "" }]

/-- Witness for the amended C6 at a concrete snapshot stream: all
hypotheses hold with `k = 2`, `fuel = 10`, and the loop exits at check 2
after 2 refreshes. -/
theorem c6_amended_witness :
    ((snapW 2).all (fun x => ProgressBarWrapper.is_finished x) = true) ∧
    (∀ j, j < 2 → (snapW j).all (fun x => ProgressBarWrapper.is_finished x) = false) ∧
    2 < 10 ∧
    TaskProgressBarPool.run snapW 0 0 10 = (some 2, refreshTotal snapW 0 2) :=
  ⟨by decide, by decide, by decide,
   c6_amended snapW 10 2 (by decide) (by decide) (by decide)⟩

/-- C7: in Phase 2 under policy `skip` (or porcelain mode), when
`create_repo` raises 409 Conflict the task prints the user-visible
notice, force-finishes its reporter with label `SKIPPED`, and returns as
Skipped — performing no delete, no second create, and no push. -/
theorem c7_skip_on_conflict (env : GitHubEnv) (repo_name policy : String) (b : Bar)
    (hp : policy = "skip" ∨ policy = "porcelain")
    (hc : env.create 0 = some 409) :
    (TaskPushToGitHub.run env policy repo_name b).1 = Except.ok PushOutcome.skipped ∧
    (TaskPushToGitHub.run env policy repo_name b).2.1.unit = "SKIPPED" ∧
    ProgressBarWrapper.is_finished (TaskPushToGitHub.run env policy repo_name b).2.1
        = true ∧
    Event.printLine ("Repository " ++ repo_name ++ " already exists. Skipping") ∈
      (TaskPushToGitHub.run env policy repo_name b).2.2 ∧
    countDeleteCalls (TaskPushToGitHub.run env policy repo_name b).2.2 = 0 ∧
    countCreateCalls (TaskPushToGitHub.run env policy repo_name b).2.2 = 1 ∧
    countPushCalls (TaskPushToGitHub.run env policy repo_name b).2.2 = 0 := by
  rcases hp with h | h <;> subst h <;>
    simp [TaskPushToGitHub.run, hc, ProgressBarWrapper.set_msg_and_finish,
      ProgressBarWrapper.set_finished, ProgressBarWrapper.set_msg,
      ProgressBarWrapper.is_finished, countDeleteCalls, countCreateCalls,
      countPushCalls]

/-- Witness for C7: the hypotheses hold at the concrete conflicting
environment `ghConflict` and the conclusions evaluate there. -/
theorem c7_witness :
    (("skip" : String) = "skip" ∨ ("skip" : String) = "porcelain") ∧
    ghConflict.create 0 = some 409 ∧
    ((TaskPushToGitHub.run ghConflict "skip" "github_alpha" bar0).1 =
        Except.ok PushOutcome.skipped ∧
     (TaskPushToGitHub.run ghConflict "skip" "github_alpha" bar0).2.1.unit =
        "SKIPPED" ∧
     ProgressBarWrapper.is_finished
        (TaskPushToGitHub.run ghConflict "skip" "github_alpha" bar0).2.1 = true ∧
     Event.printLine ("Repository " ++ "github_alpha" ++ " already exists. Skipping") ∈
       (TaskPushToGitHub.run ghConflict "skip" "github_alpha" bar0).2.2 ∧
     countDeleteCalls (TaskPushToGitHub.run ghConflict "skip" "github_alpha" bar0).2.2
        = 0 ∧
     countCreateCalls (TaskPushToGitHub.run ghConflict "skip" "github_alpha" bar0).2.2
        = 1 ∧
     countPushCalls (TaskPushToGitHub.run ghConflict "skip" "github_alpha" bar0).2.2
        = 0) :=
  ⟨Or.inl rfl, rfl,
   c7_skip_on_conflict ghConflict "github_alpha" "skip" bar0 (Or.inl rfl) rfl⟩

/-- C8: in Phase 2 under policy `overwrite`, when the first `create_repo`
raises, the task performs exactly one `delete_repo` whose owner argument
is the authenticated user's login; if the delete fails its `HTTPError`
propagates (task Failed, no second create, no push); if the delete
succeeds, exactly one more `create_repo` is performed, and a failure of
that retried create propagates (task Failed, no push). -/
theorem c8_overwrite_delete_then_recreate (env : GitHubEnv) (repo_name : String)
    (b : Bar) (st : Nat) (hc : env.create 0 = some st) :
    deleteCallsOf (TaskPushToGitHub.run env "overwrite" repo_name b).2.2 =
      [Event.deleteRepoCall repo_name env.login] ∧
    (∀ d, env.deleteResult = some d →
      (TaskPushToGitHub.run env "overwrite" repo_name b).1 =
          Except.error (Err.httpError d) ∧
      countCreateCalls (TaskPushToGitHub.run env "overwrite" repo_name b).2.2 = 1 ∧
      countPushCalls (TaskPushToGitHub.run env "overwrite" repo_name b).2.2 = 0) ∧
    (env.deleteResult = none →
      countCreateCalls (TaskPushToGitHub.run env "overwrite" repo_name b).2.2 = 2) ∧
    (∀ c, env.deleteResult = none → env.create 1 = some c →
      (TaskPushToGitHub.run env "overwrite" repo_name b).1 =
          Except.error (Err.httpError c) ∧
      countPushCalls (TaskPushToGitHub.run env "overwrite" repo_name b).2.2 = 0) := by
  refine ⟨?_, ?_, ?_, ?_⟩
  · cases hd : env.deleteResult with
    | some d =>
      simp [TaskPushToGitHub.run, hc, hd, deleteCallsOf]
    | none =>
      cases hc2 : env.create 1 with
      | some c =>
        simp [TaskPushToGitHub.run, hc, hd, hc2, deleteCallsOf]
      | none =>
        cases hp : env.pushResult with
        | some m =>
          simp [TaskPushToGitHub.run, pushTail, hc, hd, hc2, hp, deleteCallsOf]
        | none =>
          simp [TaskPushToGitHub.run, pushTail, hc, hd, hc2, hp, deleteCallsOf]
  · intro d hd
    simp [TaskPushToGitHub.run, hc, hd, countCreateCalls, countPushCalls]
  · intro hd
    cases hc2 : env.create 1 with
    | some c =>
      simp [TaskPushToGitHub.run, hc, hd, hc2, countCreateCalls]
    | none =>
      cases hp : env.pushResult with
      | some m =>
        simp [TaskPushToGitHub.run, pushTail, hc, hd, hc2, hp, countCreateCalls]
      | none =>
        simp [TaskPushToGitHub.run, pushTail, hc, hd, hc2, hp, countCreateCalls]
  · intro c hd hc2
    simp [TaskPushToGitHub.run, hc, hd, hc2, countPushCalls]

/-- GitHub environment for the C8 witness: first create raises 409, the
delete succeeds, the retried create succeeds. -/
def ghConflictOverwrite : GitHubEnv :=
  { create := fun n => if n = 0 then some 409 else none, deleteResult := none,
    pushResult := none, login := "alice", token := "ght" }

/-- Witness for C8 at `ghConflictOverwrite`: the hypothesis holds and the
conclusions evaluate there (one delete with owner `alice`, two creates). -/
theorem c8_witness :
    ghConflictOverwrite.create 0 = some 409 ∧
    (deleteCallsOf
        (TaskPushToGitHub.run ghConflictOverwrite "overwrite" "github_alpha" bar0).2.2 =
      [Event.deleteRepoCall "github_alpha" ghConflictOverwrite.login] ∧
     (∀ d, ghConflictOverwrite.deleteResult = some d →
       (TaskPushToGitHub.run ghConflictOverwrite "overwrite" "github_alpha" bar0).1 =
           Except.error (Err.httpError d) ∧
       countCreateCalls
         (TaskPushToGitHub.run ghConflictOverwrite "overwrite" "github_alpha" bar0).2.2
           = 1 ∧
       countPushCalls
         (TaskPushToGitHub.run ghConflictOverwrite "overwrite" "github_alpha" bar0).2.2
           = 0) ∧
     (ghConflictOverwrite.deleteResult = none →
       countCreateCalls
         (TaskPushToGitHub.run ghConflictOverwrite "overwrite" "github_alpha" bar0).2.2
           = 2) ∧
     (∀ c, ghConflictOverwrite.deleteResult = none →
         ghConflictOverwrite.create 1 = some c →
       (TaskPushToGitHub.run ghConflictOverwrite "overwrite" "github_alpha" bar0).1 =
           Except.error (Err.httpError c) ∧
       countPushCalls
         (TaskPushToGitHub.run ghConflictOverwrite "overwrite" "github_alpha" bar0).2.2
           = 0)) :=
  ⟨rfl, c8_overwrite_delete_then_recreate ghConflictOverwrite "github_alpha" bar0 409 rfl⟩

/-- C10 (implicit behavior, holds): the `except HTTPError` handler of
Phase 2 branches on the conflict policy for ANY `HTTPError` raised by
`create_repo`, not only 409 Conflict.  For an arbitrary non-conflict
status (e.g. 401 auth failure or a 5xx), `skip` still prints the
"already exists" notice and ends Skipped, and `overwrite` still performs
its delete call. -/
theorem c10_any_http_error_takes_conflict_branch (env : GitHubEnv)
    (repo_name : String) (b : Bar) (st : Nat)
    (hc : env.create 0 = some st) (hne : st ≠ 409) :
    (TaskPushToGitHub.run env "skip" repo_name b).1 = Except.ok PushOutcome.skipped ∧
    Event.printLine ("Repository " ++ repo_name ++ " already exists. Skipping") ∈
      (TaskPushToGitHub.run env "skip" repo_name b).2.2 ∧
    (TaskPushToGitHub.run env "skip" repo_name b).2.1.unit = "SKIPPED" ∧
    countDeleteCalls (TaskPushToGitHub.run env "overwrite" repo_name b).2.2 = 1 := by
  refine ⟨?_, ?_, ?_, ?_⟩
  · simp [TaskPushToGitHub.run, hc]
  · simp [TaskPushToGitHub.run, hc]
  · simp [TaskPushToGitHub.run, hc, ProgressBarWrapper.set_msg_and_finish,
      ProgressBarWrapper.set_finished, ProgressBarWrapper.set_msg]
  · cases hd : env.deleteResult with
    | some d =>
      simp [TaskPushToGitHub.run, hc, hd, countDeleteCalls]
    | none =>
      cases hc2 : env.create 1 with
      | some c =>
        simp [TaskPushToGitHub.run, hc, hd, hc2, countDeleteCalls]
      | none =>
        cases hp : env.pushResult with
        | some m =>
          simp [TaskPushToGitHub.run, pushTail, hc, hd, hc2, hp, countDeleteCalls]
        | none =>
          simp [TaskPushToGitHub.run, pushTail, hc, hd, hc2, hp, countDeleteCalls]

/-- GitHub environment whose first `create_repo` raises 401 (an auth
failure, not a name conflict). -/
def ghAuthFail : GitHubEnv :=
  { create := fun n => if n = 0 then some 401 else none, deleteResult := none,
    pushResult := none, login := "alice", token := "ght" }

/-- Witness for C10 at the 401 environment `ghAuthFail`. -/
theorem c10_witness :
    ghAuthFail.create 0 = some 401 ∧ (401 : Nat) ≠ 409 ∧
    ((TaskPushToGitHub.run ghAuthFail "skip" "github_alpha" bar0).1 =
        Except.ok PushOutcome.skipped ∧
     Event.printLine ("Repository " ++ "github_alpha" ++ " already exists. Skipping") ∈
       (TaskPushToGitHub.run ghAuthFail "skip" "github_alpha" bar0).2.2 ∧
     (TaskPushToGitHub.run ghAuthFail "skip" "github_alpha" bar0).2.1.unit =
        "SKIPPED" ∧
     countDeleteCalls
       (TaskPushToGitHub.run ghAuthFail "overwrite" "github_alpha" bar0).2.2 = 1) :=
  ⟨rfl, by decide,
   c10_any_http_error_takes_conflict_branch ghAuthFail "github_alpha" bar0 401 rfl
     (by decide)⟩
